import Mathlib

/-!
Shallow embedding of WeatherRecognitionApp.js.

Source: `frontend/src/components/WeatherRecognitionApp.js`, the single React
component `WeatherPredictionApp`.

* JavaScript strings are sequences of UTF-16 code units (`JSString`).
* An object used as a map is the list of its own enumerable properties in
  `Object.keys` order.
* `useState` cells and `useRef` cells are fields of one `State` record; every
  handler is a function on that record.
* Promises that are still pending (the `fetch` of `getPredictions`, the
  `getUserMedia` of `initCamera`, the `toBlob` callback of `captureImage`)
  are recorded in the state and settled by a later event.
-/

namespace WeatherRecognitionApp

/-! ## JavaScript values used by the component -/

/-- A JavaScript string: its UTF-16 code units. -/
abbrev JSString := List Nat

/-- The JavaScript string with the same characters as an ASCII Lean string. -/
def ofAscii (s : String) : JSString := s.toList.map Char.toNat

/-- Exceptions raised by the built-in operations the component relies on. -/
inductive JSError
  | TypeError
  deriving DecidableEq, Repr

/-- `String.prototype.toUpperCase` restricted to ASCII code units, on which it
is exact; used only to evaluate the component on ASCII keys. -/
def toUpperCaseAscii (s : JSString) : JSString :=
  s.map (fun c => if 97 ≤ c ∧ c ≤ 122 then c - 32 else c)

/-- The JSX elements of the `weatherIcons` array (lines 76-81). -/
inductive Icon
  | Sun
  | Cloudy
  | CloudLightning
  | CloudRain
  deriving DecidableEq, Repr

/-- `weatherIcons` (lines 76-81). -/
def weatherIcons : List Icon :=
  [Icon.Sun, Icon.Cloudy, Icon.CloudLightning, Icon.CloudRain]

/-- `weatherLabelToIndex[key]` (lines 83-88). `none` stands for every result
that is not one of the four numbers: `undefined` for an absent key, and the
members inherited from `Object.prototype`, none of which indexes an array
element. -/
def weatherLabelToIndex (key : JSString) : Option Nat :=
  if key = ofAscii "sunny" then some 0
  else if key = ofAscii "cloudy" then some 1
  else if key = ofAscii "overcast" then some 2
  else if key = ofAscii "rain" then some 3
  else none

/-- Environmental metrics of a prediction response (rendered only). -/
structure Metrics (α : Type) where
  temperature : α
  humidity : α
  wind_speed : α
  uv_index : JSString
  pressure : α
  deriving DecidableEq, Repr

/-- The `weather` member of a prediction response. -/
structure Weather (α : Type) where
  probabilities : List (JSString × α)
  deriving DecidableEq, Repr

/-- The parsed body of a successful `POST /api/predict`. -/
structure PredictionResult (α : Type) where
  weather : Weather α
  metrics : Metrics α
  deriving DecidableEq, Repr

/-- `Object.keys(o)`. -/
def objectKeys {α : Type} (o : List (JSString × α)) : List JSString :=
  o.map Prod.fst

/-- Property read `o[k]`; `none` is `undefined`. -/
def getProp {α : Type} (o : List (JSString × α)) (k : JSString) : Option α :=
  match o with
  | [] => none
  | (k0, v) :: rest => if k0 = k then some v else getProp rest k

/-- The comparison `x > y` on numbers that may be `undefined`: a comparison
with `undefined` is false. -/
def jsGreater {α : Type} [LinearOrder α] : Option α → Option α → Bool
  | some x, some y => decide (y < x)
  | _, _ => false

/-- `Array.prototype.reduce` without an initial value: a `TypeError` on the
empty array, otherwise a left fold seeded with the first element. -/
def reduce {β : Type} (f : β → β → β) : List β → Except JSError β
  | [] => Except.error JSError.TypeError
  | x :: xs => Except.ok (xs.foldl f x)

/-- `Array.prototype.indexOf`: the first position of `k`, or `-1`. -/
def indexOf (xs : List JSString) (k : JSString) : Int :=
  match xs with
  | [] => -1
  | x :: rest =>
    if x = k then 0
    else
      let i := indexOf rest k
      if i < 0 then -1 else i + 1

/-- Array read `xs[i]`; `none` is `undefined`. -/
def elementAt {β : Type} (xs : List β) (i : Int) : Option β :=
  if i < 0 then none else xs[i.toNat]?

/-- The expression `key[0].toUpperCase() + key.slice(1)` (line 189): `key[0]`
is the first code unit and `key.slice(1)` the rest; for the empty string
`key[0]` is `undefined`, and calling a method on it throws. -/
def capitalizeFirst (toUpperCase : JSString → JSString) (key : JSString) :
    Except JSError JSString :=
  match key with
  | [] => Except.error JSError.TypeError
  | c :: rest => Except.ok (toUpperCase [c] ++ rest)

/-- The object returned by `getHighestProbabilityWeather`. -/
structure WeatherDisplay (α : Type) where
  label : JSString
  probability : Option α
  icon : Option Icon
  deriving DecidableEq, Repr

/-- The callback handed to `reduce` on lines 182-184. -/
def pickKey {α : Type} [LinearOrder α] (probabilities : List (JSString × α))
    (a b : JSString) : JSString :=
  if jsGreater (getProp probabilities a) (getProp probabilities b) then a else b

/-- `getHighestProbabilityWeather` (lines 178-193), with the state cell
`predictions` and the built-in `toUpperCase` as arguments. -/
def getHighestProbabilityWeather {α : Type} [LinearOrder α]
    (toUpperCase : JSString → JSString)
    (predictions : Option (PredictionResult α)) :
    Except JSError (Option (WeatherDisplay α)) :=
  match predictions with
  | none => Except.ok none
  | some p =>
    let probabilities := p.weather.probabilities
    let keys := objectKeys probabilities
    match reduce (pickKey probabilities) keys with
    | Except.error e => Except.error e
    | Except.ok best =>
      let maxIndex := indexOf keys best
      let iconIndex := (elementAt keys maxIndex).bind weatherLabelToIndex
      let icon := iconIndex.bind (fun i => weatherIcons[i]?)
      match elementAt keys maxIndex with
      | none => Except.error JSError.TypeError
      | some key =>
        match capitalizeFirst toUpperCase key with
        | Except.error e => Except.error e
        | Except.ok label =>
          Except.ok (some ⟨label, getProp probabilities key, icon⟩)

/-- The response body of the first worked example of the specification. -/
def exampleResult : PredictionResult ℚ :=
  { weather := { probabilities :=
      [(ofAscii "sunny", 1/10), (ofAscii "cloudy", 6/10),
       (ofAscii "overcast", 2/10), (ofAscii "rain", 1/10)] },
    metrics := ⟨30, 70, 5, ofAscii "high", 1010⟩ }

/-- The response body of the tie example of the specification. -/
def tieResult : PredictionResult ℚ :=
  { weather := { probabilities :=
      [(ofAscii "sunny", 1/2), (ofAscii "cloudy", 1/2),
       (ofAscii "overcast", 0), (ofAscii "rain", 0)] },
    metrics := ⟨30, 70, 5, ofAscii "high", 1010⟩ }

/-- The reducer of lines 182-184 read on whole properties (key and value). -/
def pickPair {α : Type} [LinearOrder α] (a b : JSString × α) : JSString × α :=
  if b.2 < a.2 then a else b

/-! ## Component state -/

/-- Identity of a `File` or `Blob`. -/
abbrev Image := Nat

/-- An object URL or data URL. -/
abbrev Url := String

/-- Identity of a `MediaStreamTrack`. -/
abbrev Track := Nat

/-- A `MediaStream`: the tracks returned by `getTracks()`. -/
structure MediaStream where
  tracks : List Track
  deriving DecidableEq, Repr

/-- The `<video>` element held by `videoRef` while it is mounted. -/
structure VideoElement where
  srcObject : Option MediaStream
  deriving DecidableEq, Repr

/-- The `useState` cells (lines 6-11), the `useRef` cells `videoRef` and
`streamRef` (lines 12, 15), the tracks on which `stop()` has been called, and
the asynchronous operations that have been started and not yet settled.
`predictionsOf` is a ghost field: the image carried by the request whose
response is stored in `predictions`. The cosmetic cells `offsetX`, `bodyRef`
and `footerRef` are left out. -/
structure State (P : Type) where
  image : Option Image
  preview : Option Url
  predictions : Option P
  loading : Bool
  error : Option String
  isCameraOpen : Bool
  videoRef : Option VideoElement
  streamRef : Option MediaStream
  stoppedTracks : List Track
  inFlight : List Image
  pendingStreams : Nat
  pendingBlobs : Nat
  predictionsOf : Option Image
  deriving DecidableEq, Repr

/-- The state on mount (lines 6-15). -/
def initialState (P : Type) : State P :=
  { image := none, preview := none, predictions := none, loading := false,
    error := none, isCameraOpen := false, videoRef := none, streamRef := none,
    stoppedTracks := [], inFlight := [], pendingStreams := 0, pendingBlobs := 0,
    predictionsOf := none }

/-- Message of line 62. -/
def cameraDeniedMessage : String :=
  "Izin kamera ditolak. Mohon izinkan akses kamera di pengaturan browser."

/-- Message of line 64. -/
def cameraNotFoundMessage : String :=
  "Tidak dapat menemukan kamera. Pastikan perangkat memiliki kamera."

/-- Message of line 66. -/
def cameraFailedMessage : String :=
  "Gagal mengakses kamera. Silakan coba lagi."

/-- Message of the error thrown on line 166. -/
def httpFailureMessage : String := "Prediction failed"

/-- Message stored by the `catch` of line 172. -/
def predictionsFailedMessage : String :=
  "Failed to get predictions. Please try again."

/-! ## Handlers -/

/-- `handleImageUpload` (lines 102-110); `file` is `event.target.files[0]`. -/
def handleImageUpload {P : Type} (createObjectURL : Image → Url)
    (file : Option Image) (s : State P) : State P :=
  match file with
  | none => s
  | some f =>
    { s with image := some f, preview := some (createObjectURL f),
             predictions := none, predictionsOf := none, error := none }

/-- The loop `stream.getTracks().forEach(track => track.stop())`. -/
def stopTracks {P : Type} (stream : MediaStream) (s : State P) : State P :=
  { s with stoppedTracks := s.stoppedTracks ++ stream.tracks }

/-- `startCamera` (lines 112-123). -/
def startCamera {P : Type} (s : State P) : State P :=
  if s.isCameraOpen then
    let s1 :=
      match s.streamRef with
      | some stream => { stopTracks stream s with streamRef := none }
      | none => s
    { s1 with isCameraOpen := false }
  else
    { s with isCameraOpen := true }

/-- The synchronous part of `captureImage` (lines 125-147): `toBlob` is handed
its callback, the tracks of `videoRef.current.srcObject` are stopped and
`isCameraOpen` is reset. -/
def captureImage {P : Type} (s : State P) : State P :=
  match s.videoRef with
  | none => s
  | some video =>
    let s1 := { s with pendingBlobs := s.pendingBlobs + 1 }
    let s2 :=
      match video.srcObject with
      | some stream => stopTracks stream s1
      | none => s1
    { s2 with isCameraOpen := false }

/-- The callback of `canvas.toBlob` (lines 133-138); `dataUrl` is the value of
`canvas.toDataURL('image/jpeg')`. -/
def toBlobCallback {P : Type} (blob : Option Image) (dataUrl : Url)
    (s : State P) : State P :=
  { s with image := blob, preview := some dataUrl, predictions := none,
           predictionsOf := none, error := none,
           pendingBlobs := s.pendingBlobs - 1 }

/-- How the `fetch` of line 161 settles: the promise rejects, or it resolves
to a response with its `ok` flag and the result of `response.json()` (`none`
when that promise rejects). -/
inductive FetchOutcome (P : Type)
  | rejected
  | response (ok : Bool) (json : Option P)
  deriving DecidableEq, Repr

/-- Lines 149-153 and 156-164 of `getPredictions`, up to the `await fetch`. -/
def getPredictionsStart {P : Type} (s : State P) : State P :=
  match s.image with
  | none => s
  | some img =>
    { s with loading := true, error := none, inFlight := s.inFlight ++ [img] }

/-- The rest of the `try` block (lines 161-170): the value handed to
`setPredictions`, or the message of the exception that leaves the block. For a
rejected `fetch` and for an unparseable body the text is the browser's own; a
representative one stands for it, and the `catch` never reads it. -/
def tryBlock {P : Type} (o : FetchOutcome P) : Except String P :=
  match o with
  | FetchOutcome.rejected => Except.error "Failed to fetch"
  | FetchOutcome.response ok json =>
    if !ok then Except.error httpFailureMessage
    else
      match json with
      | none => Except.error "Unexpected token"
      | some data => Except.ok data

/-- The continuation of `getPredictions` after the `await` (lines 166-175) for
the request at position `i` of `inFlight`. -/
def getPredictionsSettle {P : Type} (i : Nat) (o : FetchOutcome P)
    (s : State P) : State P :=
  match s.inFlight[i]? with
  | none => s
  | some img =>
    let s0 := { s with inFlight := s.inFlight.eraseIdx i }
    let s1 :=
      match tryBlock o with
      | Except.ok data =>
        { s0 with predictions := some data, predictionsOf := some img }
      | Except.error _ => { s0 with error := some predictionsFailedMessage }
    { s1 with loading := false }

/-- `getPredictions` (lines 149-176) run to completion with nothing in
between: the request it starts is the last one of `inFlight`. -/
def getPredictions {P : Type} (o : FetchOutcome P) (s : State P) : State P :=
  match s.image with
  | none => s
  | some _ => getPredictionsSettle s.inFlight.length o (getPredictionsStart s)

/-- How `getUserMedia` settles (line 57): a stream, or a rejection with the
`name` of its error. -/
inductive StreamOutcome
  | granted (stream : MediaStream)
  | failed (name : String)
  deriving DecidableEq, Repr

/-- The message chosen by the `catch` of lines 60-67. -/
def cameraErrorMessage (name : String) : String :=
  if name = "NotAllowedError" then cameraDeniedMessage
  else if name = "NotFoundError" then cameraNotFoundMessage
  else cameraFailedMessage

/-- The continuation of `initCamera` after the `await` (lines 58-69). With no
video element mounted the assignment of line 58 throws a `TypeError`, which
the `catch` handles like any other failure. -/
def initCameraSettle {P : Type} (o : StreamOutcome) (s : State P) : State P :=
  let s0 := { s with pendingStreams := s.pendingStreams - 1 }
  match o with
  | StreamOutcome.granted stream =>
    match s0.videoRef with
    | some video =>
      { s0 with videoRef := some { video with srcObject := some stream },
                streamRef := some stream }
    | none =>
      { s0 with error := some (cameraErrorMessage "TypeError"),
                isCameraOpen := false }
  | StreamOutcome.failed name =>
    { s0 with error := some (cameraErrorMessage name), isCameraOpen := false }

/-! ## Rendering and effects -/

/-- The commit after a state update: the `<video ref={videoRef}>` element
exists exactly while `isCameraOpen` (lines 258-265). -/
def mountVideo {P : Type} (s : State P) : State P :=
  { s with videoRef :=
      if s.isCameraOpen then some (s.videoRef.getD { srcObject := none })
      else none }

/-- The effect of lines 53-74: it runs when `isCameraOpen` differs from the
previous render and calls `initCamera` when the camera is open and the video
element is mounted. -/
def cameraEffect {P : Type} (previous : Bool) (s : State P) : State P :=
  if s.isCameraOpen = previous then s
  else if s.isCameraOpen ∧ s.videoRef.isSome then
    { s with pendingStreams := s.pendingStreams + 1 }
  else s

/-- A render after the handler that took `before` to `s`. -/
def commit {P : Type} (before s : State P) : State P :=
  cameraEffect before.isCameraOpen (mountVideo s)

/-- Opening the camera from start to finish: `startCamera`, the render and
effect that follow, and the settling of `getUserMedia`. -/
def openCamera {P : Type} (o : StreamOutcome) (s : State P) : State P :=
  let s1 := commit s (startCamera s)
  commit s1 (initCameraSettle o s1)

/-- A capture from start to finish: `captureImage`, the render that follows,
and the `toBlob` callback when one was registered. -/
def captureAndDeliver {P : Type} (blob : Option Image) (dataUrl : Url)
    (s : State P) : State P :=
  let s1 := commit s (captureImage s)
  match s.videoRef with
  | none => s1
  | some _ => commit s1 (toBlobCallback blob dataUrl s1)

/-! ## Events -/

/-- What can happen to the mounted component. -/
inductive Event (P : Type)
  | fileSelected (file : Option Image)
  | cameraToggled
  | frameCaptured
  | blobDelivered (blob : Option Image) (dataUrl : Url)
  | predictionsRequested
  | fetchSettled (i : Nat) (o : FetchOutcome P)
  | streamSettled (o : StreamOutcome)
  deriving DecidableEq, Repr

/-- One event. An event is refused (`none`) when the control that raises it is
not rendered or is disabled (lines 258, 277, 317), or when there is no pending
operation for it to settle. -/
def step {P : Type} (createObjectURL : Image → Url) (s : State P) :
    Event P → Option (State P)
  | Event.fileSelected file =>
    if s.isCameraOpen then none
    else some (commit s (handleImageUpload createObjectURL file s))
  | Event.cameraToggled => some (commit s (startCamera s))
  | Event.frameCaptured =>
    if s.isCameraOpen then some (commit s (captureImage s)) else none
  | Event.blobDelivered blob dataUrl =>
    if 0 < s.pendingBlobs then some (commit s (toBlobCallback blob dataUrl s))
    else none
  | Event.predictionsRequested =>
    if s.image.isSome ∧ s.loading = false then
      some (commit s (getPredictionsStart s))
    else none
  | Event.fetchSettled i o =>
    if i < s.inFlight.length then some (commit s (getPredictionsSettle i o s))
    else none
  | Event.streamSettled o =>
    if 0 < s.pendingStreams then some (commit s (initCameraSettle o s))
    else none

/-- A sequence of events. -/
def run {P : Type} (createObjectURL : Image → Url) (s : State P) :
    List (Event P) → Option (State P)
  | [] => some s
  | e :: rest =>
    match step createObjectURL s e with
    | none => none
    | some s1 => run createObjectURL s1 rest

/-- The event stores a new image: a file was selected or a captured frame is
delivered. -/
def replacesImage {P : Type} : Event P → Bool
  | Event.fileSelected (some _) => true
  | Event.blobDelivered _ _ => true
  | _ => false

/-- A sequence of events in which no image is stored while a prediction
request is in flight. -/
def runQuiet {P : Type} (createObjectURL : Image → Url) (s : State P) :
    List (Event P) → Option (State P)
  | [] => some s
  | e :: rest =>
    if replacesImage e ∧ s.inFlight ≠ [] then none
    else
      match step createObjectURL s e with
      | none => none
      | some s1 => runQuiet createObjectURL s1 rest

/-- The stored prediction belongs to the stored image: when `predictions` is
non-null, the request that produced it carried the image now in `image`. -/
def Fresh {P : Type} (s : State P) : Prop :=
  s.predictions.isSome = true →
    s.image.isSome = true ∧ s.predictionsOf = s.image

/-- The invariant of the quiet runs: every request in flight carries the
stored image, and the stored prediction belongs to it. -/
def Settled {P : Type} (s : State P) : Prop :=
  (∀ img ∈ s.inFlight, s.image = some img) ∧ Fresh s

instance {P : Type} (s : State P) : Decidable (Fresh s) := by
  unfold Fresh
  infer_instance

/-- The URL handed out for a file in the worked examples. -/
def exampleObjectURL (f : Image) : Url := "blob:" ++ toString f

/-- The state with the camera open on a stream with the single track 5. -/
def cameraOpenState : State Nat :=
  { initialState Nat with
    isCameraOpen := true
    videoRef := some { srcObject := some { tracks := [5] } }
    streamRef := some { tracks := [5] } }

/-! ## Bookkeeping beside a run -/

/-- Bookkeeping kept beside a run; no part of the component. `pending` lists,
for every request in flight and in the order of `inFlight`, the image the
request carries and whether an image has been stored since the request was
started. `overlapped` tells whether the request whose response is stored in
`predictions` had that flag set when it settled. -/
structure Watch where
  pending : List (Image × Bool)
  overlapped : Bool
  deriving DecidableEq, Repr

/-- The bookkeeping at the start of a run. -/
def initialWatch : Watch := { pending := [], overlapped := false }

/-- How one event, accepted in state `s`, changes the bookkeeping: storing an
image flags every request in flight and, as `predictions` is cleared, resets
`overlapped`; a new request is entered unflagged; a response that is stored
hands the flag of its request to `overlapped`. -/
def watchStep {P : Type} (w : Watch) (s : State P) : Event P → Watch
  | Event.fileSelected (some _) =>
    { pending := w.pending.map (fun p => (p.1, true)), overlapped := false }
  | Event.blobDelivered _ _ =>
    { pending := w.pending.map (fun p => (p.1, true)), overlapped := false }
  | Event.predictionsRequested =>
    match s.image with
    | some img => { w with pending := w.pending ++ [(img, false)] }
    | none => w
  | Event.fetchSettled i o =>
    match w.pending[i]?, tryBlock o with
    | some p, Except.ok _ =>
      { pending := w.pending.eraseIdx i, overlapped := p.2 }
    | _, _ => { w with pending := w.pending.eraseIdx i }
  | _ => w

/-- A sequence of events together with its bookkeeping. -/
def runWatched {P : Type} (createObjectURL : Image → Url) (s : State P)
    (w : Watch) : List (Event P) → Option (State P × Watch)
  | [] => some (s, w)
  | e :: rest =>
    match step createObjectURL s e with
    | none => none
    | some s1 => runWatched createObjectURL s1 (watchStep w s e) rest

/-- The bookkeeping agrees with the state: `pending` lists the requests of
`inFlight`, an unflagged request carries the stored image, and the stored
prediction belongs to the stored image unless its request was flagged. -/
def Watched {P : Type} (s : State P) (w : Watch) : Prop :=
  w.pending.map Prod.fst = s.inFlight ∧
  (∀ p ∈ w.pending, p.2 = false → s.image = some p.1) ∧
  (w.overlapped = false → Fresh s)

/-! ## Theorems -/

/-! ## Selection of the primary weather -/

theorem getProp_of_mem {α : Type} (o : List (JSString × α))
    (hnd : (objectKeys o).Nodup) (p : JSString × α) (hp : p ∈ o) :
    getProp o p.1 = some p.2 := by
  induction o with
  | nil => cases hp
  | cons q rest ih =>
    obtain ⟨k0, v0⟩ := q
    simp only [objectKeys, List.map_cons, List.nodup_cons] at hnd
    rcases List.mem_cons.mp hp with h | h
    · subst h
      simp [getProp]
    · have hne : k0 ≠ p.1 := by
        intro heq
        apply hnd.1
        rw [heq]
        exact List.mem_map_of_mem Prod.fst h
      simp only [getProp, hne, if_false]
      exact ih hnd.2 h

theorem indexOf_nonneg_of_mem (xs : List JSString) (k : JSString) (hk : k ∈ xs) :
    0 ≤ indexOf xs k := by
  induction xs with
  | nil => cases hk
  | cons x rest ih =>
    unfold indexOf
    by_cases hx : x = k
    · simp [hx]
    · have hmem : k ∈ rest := by
        rcases List.mem_cons.mp hk with h | h
        · exact absurd h.symm hx
        · exact h
      have := ih hmem
      simp only [hx, if_false]
      split
      · omega
      · omega

theorem elementAt_indexOf (xs : List JSString) (k : JSString) (hk : k ∈ xs) :
    elementAt xs (indexOf xs k) = some k := by
  induction xs with
  | nil => cases hk
  | cons x rest ih =>
    by_cases hx : x = k
    · subst hx
      simp [indexOf, elementAt]
    · have hmem : k ∈ rest := by
        rcases List.mem_cons.mp hk with h | h
        · exact absurd h.symm hx
        · exact h
      have h0 := indexOf_nonneg_of_mem rest k hmem
      have ih2 := ih hmem
      unfold indexOf
      simp only [hx, if_false]
      have hlt : ¬ indexOf rest k < 0 := by omega
      simp only [hlt, if_false]
      unfold elementAt at ih2 ⊢
      simp only [hlt, if_false] at ih2
      have hlt2 : ¬ indexOf rest k + 1 < 0 := by omega
      simp only [hlt2, if_false]
      have hnat : (indexOf rest k + 1).toNat = (indexOf rest k).toNat + 1 := by omega
      rw [hnat]
      simpa using ih2

theorem foldl_pickPair_mem {α : Type} [LinearOrder α] (xs : List (JSString × α))
    (acc : JSString × α) : xs.foldl pickPair acc ∈ acc :: xs := by
  induction xs generalizing acc with
  | nil => simp
  | cons b rest ih =>
    simp only [List.foldl_cons]
    have h := ih (pickPair acc b)
    rcases List.mem_cons.mp h with h1 | h1
    · rw [h1]
      unfold pickPair
      split <;> simp
    · simp [h1]

theorem foldl_pickKey_eq {α : Type} [LinearOrder α] (o : List (JSString × α))
    (xs : List (JSString × α)) (acc : JSString × α)
    (hget : ∀ p ∈ acc :: xs, getProp o p.1 = some p.2) :
    (xs.map Prod.fst).foldl (pickKey o) acc.1 = (xs.foldl pickPair acc).1 := by
  induction xs generalizing acc with
  | nil => simp
  | cons b rest ih =>
    simp only [List.map_cons, List.foldl_cons]
    have ha := hget acc (by simp)
    have hb := hget b (by simp)
    have hstep : pickKey o acc.1 b.1 = (pickPair acc b).1 := by
      unfold pickKey pickPair
      rw [ha, hb]
      simp only [jsGreater, decide_eq_true_eq]
      split <;> rfl
    rw [hstep]
    apply ih
    intro p hp
    rcases List.mem_cons.mp hp with h | h
    · rw [h]
      unfold pickPair
      split
      · exact ha
      · exact hb
    · exact hget p (by simp [h])

theorem foldl_pickPair_split {α : Type} [LinearOrder α] (xs : List (JSString × α))
    (acc : JSString × α) :
    ∃ pre post, acc :: xs = pre ++ xs.foldl pickPair acc :: post ∧
      (∀ p ∈ pre, p.2 ≤ (xs.foldl pickPair acc).2) ∧
      (∀ p ∈ post, p.2 < (xs.foldl pickPair acc).2) := by
  induction xs using List.reverseRecOn with
  | nil => exact ⟨[], [], by simp⟩
  | append_singleton ys b ih =>
    obtain ⟨pre, post, heq, hpre, hpost⟩ := ih
    rw [List.foldl_append]
    simp only [List.foldl_cons, List.foldl_nil]
    by_cases hlt : b.2 < (ys.foldl pickPair acc).2
    · refine ⟨pre, post ++ [b], ?_, ?_, ?_⟩
      · simp only [pickPair, hlt, if_true]
        rw [← List.cons_append, heq]
        simp
      · simpa only [pickPair, hlt, if_true] using hpre
      · simp only [pickPair, hlt, if_true]
        intro p hp
        rcases List.mem_append.mp hp with h | h
        · exact hpost p h
        · simp only [List.mem_singleton] at h
          rw [h]
          exact hlt
    · refine ⟨acc :: ys, [], ?_, ?_, ?_⟩
      · simp only [pickPair, hlt, if_false]
        simp
      · simp only [pickPair, hlt, if_false]
        intro p hp
        have hr : (ys.foldl pickPair acc).2 ≤ b.2 := not_lt.mp hlt
        rw [heq] at hp
        rcases List.mem_append.mp hp with h | h
        · exact le_trans (hpre p h) hr
        · rcases List.mem_cons.mp h with h2 | h2
          · rw [h2]
            exact hr
          · exact le_trans (le_of_lt (hpost p h2)) hr
      · intro p hp
        cases hp

/-- The value computed by `getHighestProbabilityWeather` on a well-formed,
non-empty probabilities object: the selected property `r` splits the object
into the properties before it, none larger, and those after it, all strictly
smaller. -/
theorem getHighest_selects {α : Type} [LinearOrder α]
    (toUpperCase : JSString → JSString) (p : PredictionResult α)
    (hne : p.weather.probabilities ≠ [])
    (hnd : (objectKeys p.weather.probabilities).Nodup) :
    ∃ pre r post, p.weather.probabilities = pre ++ r :: post ∧
      (∀ q ∈ pre, q.2 ≤ r.2) ∧ (∀ q ∈ post, q.2 < r.2) ∧
      getHighestProbabilityWeather toUpperCase (some p) =
        match capitalizeFirst toUpperCase r.1 with
        | Except.error e => Except.error e
        | Except.ok label =>
          Except.ok (some ⟨label, some r.2,
            (weatherLabelToIndex r.1).bind (fun i => weatherIcons[i]?)⟩) := by
  obtain ⟨w, m⟩ := p
  obtain ⟨probs⟩ := w
  simp only at hne hnd ⊢
  cases probs with
  | nil => exact absurd rfl hne
  | cons p0 ps =>
    obtain ⟨pre, post, heq, hpre, hpost⟩ := foldl_pickPair_split ps p0
    have hmem := foldl_pickPair_mem ps p0
    have hget : ∀ q ∈ p0 :: ps, getProp (p0 :: ps) q.1 = some q.2 :=
      fun q hq => getProp_of_mem (p0 :: ps) hnd q hq
    have hfold := foldl_pickKey_eq (p0 :: ps) ps p0 hget
    refine ⟨pre, ps.foldl pickPair p0, post, heq, hpre, hpost, ?_⟩
    have hkey : (ps.foldl pickPair p0).1 ∈ objectKeys (p0 :: ps) :=
      List.mem_map_of_mem Prod.fst hmem
    have hidx := elementAt_indexOf (objectKeys (p0 :: ps)) _ hkey
    have hred : reduce (pickKey (p0 :: ps)) (objectKeys (p0 :: ps)) =
        Except.ok (ps.foldl pickPair p0).1 := by
      simp only [objectKeys, List.map_cons, reduce]
      rw [hfold]
    simp only [getHighestProbabilityWeather, hred, hidx, hget _ hmem, Option.some_bind]

/-! ## C1, C2 : `getHighestProbabilityWeather` -/

/-- C1: for a non-null prediction result whose probabilities object is non-empty,
has totally ordered values and non-empty keys (pairwise distinct, as the keys of
every object are), `getHighestProbabilityWeather` returns an object whose probability is the maximum of the probabilities in the
object, whose label is the selected key with its first code unit upper-cased and
the rest unchanged, and whose icon is `weatherIcons[weatherLabelToIndex[key]]`
for that same key; for `{sunny:0.1, cloudy:0.6, overcast:0.2, rain:0.1}` it
returns label "Cloudy", probability 0.6 and the icon at index 1 (cloudy). -/
theorem getHighestProbabilityWeather_max {α : Type} [LinearOrder α]
    (toUpperCase : JSString → JSString) (p : PredictionResult α)
    (hne : p.weather.probabilities ≠ [])
    (hnd : (objectKeys p.weather.probabilities).Nodup)
    (hkeys : ∀ k ∈ objectKeys p.weather.probabilities, k ≠ [])
    (hup : toUpperCase (ofAscii "c") = ofAscii "C") :
    (∃ c rest v, (c :: rest, v) ∈ p.weather.probabilities ∧
      (∀ q ∈ p.weather.probabilities, q.2 ≤ v) ∧
      getHighestProbabilityWeather toUpperCase (some p) =
        Except.ok (some ⟨toUpperCase [c] ++ rest, some v,
          (weatherLabelToIndex (c :: rest)).bind (fun i => weatherIcons[i]?)⟩)) ∧
    getHighestProbabilityWeather toUpperCase (some exampleResult) =
      Except.ok (some ⟨ofAscii "Cloudy", some (6/10), weatherIcons[1]?⟩) ∧
    weatherIcons[1]? = some Icon.Cloudy := by
  refine ⟨?_, ?_, rfl⟩
  · obtain ⟨pre, r, post, heq, hpre, hpost, hres⟩ :=
      getHighest_selects toUpperCase p hne hnd
    obtain ⟨k, v⟩ := r
    have hmem : (k, v) ∈ p.weather.probabilities := by
      rw [heq]
      simp
    have hk : k ≠ [] := hkeys k (List.mem_map_of_mem Prod.fst hmem)
    cases k with
    | nil => exact absurd rfl hk
    | cons c rest =>
      refine ⟨c, rest, v, hmem, ?_, ?_⟩
      · intro q hq
        rw [heq] at hq
        rcases List.mem_append.mp hq with h | h
        · exact hpre q h
        · rcases List.mem_cons.mp h with h2 | h2
          · rw [h2]
          · exact le_of_lt (hpost q h2)
      · rw [hres]
        rfl
  · have hc : toUpperCase [99] = [67] := hup
    simp [getHighestProbabilityWeather, exampleResult, objectKeys, reduce, pickKey,
      getProp, jsGreater, indexOf, elementAt, capitalizeFirst, weatherLabelToIndex,
      weatherIcons, ofAscii]
    norm_num [hc]

theorem getHighestProbabilityWeather_max_witness :
    (∃ c rest v, (c :: rest, v) ∈ exampleResult.weather.probabilities ∧
      (∀ q ∈ exampleResult.weather.probabilities, q.2 ≤ v) ∧
      getHighestProbabilityWeather toUpperCaseAscii (some exampleResult) =
        Except.ok (some ⟨toUpperCaseAscii [c] ++ rest, some v,
          (weatherLabelToIndex (c :: rest)).bind (fun i => weatherIcons[i]?)⟩)) ∧
    getHighestProbabilityWeather toUpperCaseAscii (some exampleResult) =
      Except.ok (some ⟨ofAscii "Cloudy", some (6/10), weatherIcons[1]?⟩) ∧
    weatherIcons[1]? = some Icon.Cloudy :=
  getHighestProbabilityWeather_max toUpperCaseAscii exampleResult
    (by simp [exampleResult])
    (by decide)
    (by decide)
    (by decide)

/-- C2 as stated fails: on the tie `{sunny:0.5, cloudy:0.5, overcast:0, rain:0}`
the returned label is "Cloudy", not "Sunny". -/
theorem getHighestProbabilityWeather_tie_not_first :
    ∃ d, getHighestProbabilityWeather toUpperCaseAscii (some tieResult) =
        Except.ok (some d) ∧
      d.label = ofAscii "Cloudy" ∧ d.label ≠ ofAscii "Sunny" := by
  refine ⟨⟨ofAscii "Cloudy", some (1/2), some Icon.Cloudy⟩, ?_, rfl, by decide⟩
  simp [getHighestProbabilityWeather, tieResult, objectKeys, reduce, pickKey,
    getProp, jsGreater, indexOf, elementAt, capitalizeFirst, toUpperCaseAscii,
    weatherLabelToIndex, weatherIcons, ofAscii]

/-- C2 (amended): when several categories share the maximum probability,
`getHighestProbabilityWeather` selects the last of them in the key order of the
probabilities object: no key before the selected one has a larger probability
and every key after it has a strictly smaller one; for
`{sunny:0.5, cloudy:0.5, overcast:0, rain:0}` the returned label is "Cloudy". -/
theorem getHighestProbabilityWeather_tie_last {α : Type} [LinearOrder α]
    (toUpperCase : JSString → JSString) (p : PredictionResult α)
    (hne : p.weather.probabilities ≠ [])
    (hnd : (objectKeys p.weather.probabilities).Nodup)
    (hkeys : ∀ k ∈ objectKeys p.weather.probabilities, k ≠ [])
    (hup : toUpperCase (ofAscii "c") = ofAscii "C") :
    (∃ pre c rest v post,
      p.weather.probabilities = pre ++ (c :: rest, v) :: post ∧
      (∀ q ∈ pre, q.2 ≤ v) ∧ (∀ q ∈ post, q.2 < v) ∧
      ∃ icon, getHighestProbabilityWeather toUpperCase (some p) =
        Except.ok (some ⟨toUpperCase [c] ++ rest, some v, icon⟩)) ∧
    ∃ d, getHighestProbabilityWeather toUpperCase (some tieResult) =
        Except.ok (some d) ∧ d.label = ofAscii "Cloudy" := by
  constructor
  · obtain ⟨pre, r, post, heq, hpre, hpost, hres⟩ :=
      getHighest_selects toUpperCase p hne hnd
    obtain ⟨k, v⟩ := r
    have hmem : (k, v) ∈ p.weather.probabilities := by
      rw [heq]
      simp
    have hk : k ≠ [] := hkeys k (List.mem_map_of_mem Prod.fst hmem)
    cases k with
    | nil => exact absurd rfl hk
    | cons c rest =>
      exact ⟨pre, c, rest, v, post, heq, hpre, hpost, _, hres⟩
  · have hc : toUpperCase [99] = [67] := hup
    refine ⟨⟨ofAscii "Cloudy", some (1/2), some Icon.Cloudy⟩, ?_, rfl⟩
    simp [getHighestProbabilityWeather, tieResult, objectKeys, reduce, pickKey,
      getProp, jsGreater, indexOf, elementAt, capitalizeFirst, weatherLabelToIndex,
      weatherIcons, ofAscii, hc]

theorem getHighestProbabilityWeather_tie_last_witness :
    (∃ pre c rest v post,
      tieResult.weather.probabilities = pre ++ (c :: rest, v) :: post ∧
      (∀ q ∈ pre, q.2 ≤ v) ∧ (∀ q ∈ post, q.2 < v) ∧
      ∃ icon, getHighestProbabilityWeather toUpperCaseAscii (some tieResult) =
        Except.ok (some ⟨toUpperCaseAscii [c] ++ rest, some v, icon⟩)) ∧
    ∃ d, getHighestProbabilityWeather toUpperCaseAscii (some tieResult) =
        Except.ok (some d) ∧ d.label = ofAscii "Cloudy" :=
  getHighestProbabilityWeather_tie_last toUpperCaseAscii tieResult
    (by simp [tieResult])
    (by decide)
    (by decide)
    (by decide)

/-! ## Freshness of the stored prediction -/

theorem settled_of_fields {P : Type} (s t : State P)
    (h1 : t.image = s.image) (h2 : t.predictions = s.predictions)
    (h3 : t.predictionsOf = s.predictionsOf) (h4 : t.inFlight = s.inFlight)
    (hs : Settled s) : Settled t := by
  unfold Settled Fresh at *
  rw [h1, h2, h3, h4]
  exact hs

theorem commit_fields {P : Type} (b s : State P) :
    (commit b s).image = s.image ∧ (commit b s).predictions = s.predictions ∧
    (commit b s).predictionsOf = s.predictionsOf ∧
    (commit b s).inFlight = s.inFlight ∧ (commit b s).error = s.error ∧
    (commit b s).loading = s.loading ∧ (commit b s).preview = s.preview ∧
    (commit b s).isCameraOpen = s.isCameraOpen ∧
    (commit b s).streamRef = s.streamRef ∧
    (commit b s).stoppedTracks = s.stoppedTracks ∧
    (commit b s).pendingBlobs = s.pendingBlobs := by
  unfold commit cameraEffect mountVideo
  split_ifs <;> simp

theorem settled_commit {P : Type} (b s : State P) (hs : Settled s) :
    Settled (commit b s) := by
  obtain ⟨h1, h2, h3, h4, _⟩ := commit_fields b s
  exact settled_of_fields s _ h1 h2 h3 h4 hs

theorem settled_startCamera {P : Type} (s : State P) (hs : Settled s) :
    Settled (startCamera s) := by
  apply settled_of_fields s _ _ _ _ _ hs <;>
    (unfold startCamera stopTracks; split <;> first | rfl | (split <;> rfl))

theorem settled_captureImage {P : Type} (s : State P) (hs : Settled s) :
    Settled (captureImage s) := by
  apply settled_of_fields s _ _ _ _ _ hs <;>
    (unfold captureImage stopTracks; split <;> first | rfl | (split <;> rfl))

theorem settled_initCameraSettle {P : Type} (o : StreamOutcome) (s : State P)
    (hs : Settled s) : Settled (initCameraSettle o s) := by
  cases o with
  | failed name => exact settled_of_fields s _ rfl rfl rfl rfl hs
  | granted stream =>
    apply settled_of_fields s _ _ _ _ _ hs <;>
      (unfold initCameraSettle; simp only; split <;> rfl)

theorem settled_handleImageUpload {P : Type} (createObjectURL : Image → Url)
    (file : Option Image) (s : State P) (hs : Settled s)
    (hq : file = none ∨ s.inFlight = []) :
    Settled (handleImageUpload createObjectURL file s) := by
  cases file with
  | none => exact hs
  | some f =>
    have hnil : s.inFlight = [] := by
      rcases hq with h | h
      · cases h
      · exact h
    unfold handleImageUpload Settled Fresh
    simp [hnil]

theorem settled_toBlobCallback {P : Type} (blob : Option Image) (dataUrl : Url)
    (s : State P) (hq : s.inFlight = []) :
    Settled (toBlobCallback blob dataUrl s) := by
  unfold toBlobCallback Settled Fresh
  simp [hq]

theorem settled_getPredictionsStart {P : Type} (s : State P) (hs : Settled s) :
    Settled (getPredictionsStart s) := by
  unfold getPredictionsStart
  cases hi : s.image with
  | none => exact hs
  | some img =>
    obtain ⟨h1, h2⟩ := hs
    unfold Settled Fresh at *
    simp only [hi] at h1 h2 ⊢
    refine ⟨?_, h2⟩
    intro j hj
    rcases List.mem_append.mp hj with h | h
    · exact h1 j h
    · simp only [List.mem_singleton] at h
      rw [h]

theorem settled_getPredictionsSettle {P : Type} (i : Nat) (o : FetchOutcome P)
    (s : State P) (hs : Settled s) : Settled (getPredictionsSettle i o s) := by
  unfold getPredictionsSettle
  cases hi : s.inFlight[i]? with
  | none => exact hs
  | some img =>
    obtain ⟨h1, h2⟩ := hs
    have himg : s.image = some img := h1 img (List.getElem?_mem hi)
    unfold Settled Fresh at *
    simp only
    cases tryBlock o with
    | error e =>
      simp only
      exact ⟨fun j hj => h1 j (List.mem_of_mem_eraseIdx hj), h2⟩
    | ok data =>
      simp only
      refine ⟨fun j hj => h1 j (List.mem_of_mem_eraseIdx hj), ?_⟩
      intro _
      rw [himg]
      exact ⟨rfl, rfl⟩

theorem settled_step {P : Type} (createObjectURL : Image → Url) (s t : State P)
    (e : Event P) (hs : Settled s)
    (hq : ¬ (replacesImage e = true ∧ s.inFlight ≠ []))
    (hstep : step createObjectURL s e = some t) : Settled t := by
  cases e with
  | fileSelected file =>
    simp only [step] at hstep
    split at hstep
    · cases hstep
    · cases hstep
      apply settled_commit
      apply settled_handleImageUpload _ _ _ hs
      cases file with
      | none => exact Or.inl rfl
      | some f =>
        right
        by_contra hne
        exact hq ⟨rfl, hne⟩
  | cameraToggled =>
    simp only [step] at hstep
    cases hstep
    exact settled_commit _ _ (settled_startCamera s hs)
  | frameCaptured =>
    simp only [step] at hstep
    split at hstep
    · cases hstep
      exact settled_commit _ _ (settled_captureImage s hs)
    · cases hstep
  | blobDelivered blob dataUrl =>
    simp only [step] at hstep
    split at hstep
    · cases hstep
      apply settled_commit
      apply settled_toBlobCallback
      by_contra hne
      exact hq ⟨rfl, hne⟩
    · cases hstep
  | predictionsRequested =>
    simp only [step] at hstep
    split at hstep
    · cases hstep
      exact settled_commit _ _ (settled_getPredictionsStart s hs)
    · cases hstep
  | fetchSettled i o =>
    simp only [step] at hstep
    split at hstep
    · cases hstep
      exact settled_commit _ _ (settled_getPredictionsSettle i o s hs)
    · cases hstep
  | streamSettled o =>
    simp only [step] at hstep
    split at hstep
    · cases hstep
      exact settled_commit _ _ (settled_initCameraSettle o s hs)
    · cases hstep

theorem settled_runQuiet {P : Type} (createObjectURL : Image → Url)
    (evs : List (Event P)) (s t : State P) (hs : Settled s)
    (hrun : runQuiet createObjectURL s evs = some t) :
    Settled t ∧ run createObjectURL s evs = some t := by
  induction evs generalizing s with
  | nil =>
    simp only [runQuiet, Option.some.injEq] at hrun
    subst hrun
    exact ⟨hs, rfl⟩
  | cons e rest ih =>
    simp only [runQuiet] at hrun
    split at hrun
    · cases hrun
    · rename_i hq
      cases hstep : step createObjectURL s e with
      | none => simp [hstep] at hrun
      | some s1 =>
        simp only [hstep] at hrun
        have h1 := settled_step createObjectURL s s1 e hs hq hstep
        obtain ⟨h2, h3⟩ := ih s1 h1 hrun
        refine ⟨h2, ?_⟩
        simp only [run, hstep]
        exact h3

theorem settled_initialState (P : Type) : Settled (initialState P) := by
  unfold Settled Fresh initialState
  simp

/-- C3: the code at the failing input. A file is selected, a prediction is
requested, a second file is selected while the request is in flight (which
clears `predictions`, line 107), and the response then arrives: the run ends
with `predictions` non-null and belonging to the first file while `image` is
the second one. -/
theorem stale_prediction_reachable :
    ∃ s, run exampleObjectURL (initialState Nat)
        [Event.fileSelected (some 1), Event.predictionsRequested,
         Event.fileSelected (some 2),
         Event.fetchSettled 0 (FetchOutcome.response true (some 7))] = some s ∧
      s.image = some 2 ∧ s.predictions = some 7 ∧ s.predictionsOf = some 1 ∧
      ¬ Fresh s := by
  refine ⟨_, rfl, rfl, rfl, rfl, ?_⟩
  decide

/-- In every state reached from the initial state by a sequence of the
component events in which no image is stored (a file selected, a captured frame
delivered) while a prediction request is in flight, if `predictions` is
non-null then it is the response to a request made with the currently stored
image. -/
theorem fresh_of_runQuiet {P : Type} (createObjectURL : Image → Url)
    (evs : List (Event P)) (s : State P)
    (hrun : runQuiet createObjectURL (initialState P) evs = some s) :
    run createObjectURL (initialState P) evs = some s ∧ Fresh s :=
  ⟨(settled_runQuiet createObjectURL evs _ s (settled_initialState P) hrun).2,
   (settled_runQuiet createObjectURL evs _ s (settled_initialState P) hrun).1.2⟩

theorem fresh_of_runQuiet_witness :
    run exampleObjectURL (initialState Nat)
        [Event.fileSelected (some 1), Event.predictionsRequested,
         Event.fetchSettled 0 (FetchOutcome.response true (some 7))] =
      some { initialState Nat with
        image := some 1, preview := some (exampleObjectURL 1),
        predictions := some 7, predictionsOf := some 1 } ∧
    Fresh ({ initialState Nat with
        image := some 1, preview := some (exampleObjectURL 1),
        predictions := some 7, predictionsOf := some 1 } : State Nat) :=
  fresh_of_runQuiet exampleObjectURL
    [Event.fileSelected (some 1), Event.predictionsRequested,
     Event.fetchSettled 0 (FetchOutcome.response true (some 7))] _ rfl

/-! ## Freshness unless an image was stored while the request was in flight -/

theorem map_fst_eraseIdx {β γ : Type} (l : List (β × γ)) (i : Nat) :
    (l.eraseIdx i).map Prod.fst = (l.map Prod.fst).eraseIdx i := by
  induction l generalizing i with
  | nil => rfl
  | cons x rest ih =>
    cases i with
    | zero => rfl
    | succ j => simp [List.eraseIdx, ih]

theorem watched_of_fields {P : Type} (s t : State P) (w : Watch)
    (h1 : t.image = s.image) (h2 : t.predictions = s.predictions)
    (h3 : t.predictionsOf = s.predictionsOf) (h4 : t.inFlight = s.inFlight)
    (hs : Watched s w) : Watched t w := by
  unfold Watched Fresh at *
  rw [h1, h2, h3, h4]
  exact hs

theorem watched_commit {P : Type} (b s : State P) (w : Watch)
    (hs : Watched s w) : Watched (commit b s) w := by
  obtain ⟨h1, h2, h3, h4, _⟩ := commit_fields b s
  exact watched_of_fields s _ w h1 h2 h3 h4 hs

theorem watched_startCamera {P : Type} (s : State P) (w : Watch)
    (hs : Watched s w) : Watched (startCamera s) w := by
  apply watched_of_fields s _ w _ _ _ _ hs <;>
    (unfold startCamera stopTracks; split <;> first | rfl | (split <;> rfl))

theorem watched_captureImage {P : Type} (s : State P) (w : Watch)
    (hs : Watched s w) : Watched (captureImage s) w := by
  apply watched_of_fields s _ w _ _ _ _ hs <;>
    (unfold captureImage stopTracks; split <;> first | rfl | (split <;> rfl))

theorem watched_initCameraSettle {P : Type} (o : StreamOutcome) (s : State P)
    (w : Watch) (hs : Watched s w) : Watched (initCameraSettle o s) w := by
  cases o with
  | failed name => exact watched_of_fields s _ w rfl rfl rfl rfl hs
  | granted stream =>
    apply watched_of_fields s _ w _ _ _ _ hs <;>
      (unfold initCameraSettle; simp only; split <;> rfl)

theorem watched_store {P : Type} (s t : State P) (w : Watch)
    (hs : Watched s w) (hp : t.predictions = none)
    (hf : t.inFlight = s.inFlight) :
    Watched t { pending := w.pending.map (fun p => (p.1, true)),
                overlapped := false } := by
  obtain ⟨h1, _, _⟩ := hs
  refine ⟨?_, ?_, ?_⟩
  · rw [hf, ← h1]
    simp [List.map_map, Function.comp]
  · intro p hp2 hflag
    simp only [List.mem_map] at hp2
    obtain ⟨q, _, hq⟩ := hp2
    rw [← hq] at hflag
    cases hflag
  · intro _
    unfold Fresh
    rw [hp]
    intro h
    cases h

theorem watched_step {P : Type} (createObjectURL : Image → Url) (s t : State P)
    (w : Watch) (e : Event P) (hs : Watched s w)
    (hstep : step createObjectURL s e = some t) :
    Watched t (watchStep w s e) := by
  cases e with
  | fileSelected file =>
    simp only [step] at hstep
    split at hstep
    · cases hstep
    · cases hstep
      apply watched_commit
      cases file with
      | none => exact hs
      | some f => exact watched_store s _ w hs rfl rfl
  | cameraToggled =>
    simp only [step] at hstep
    cases hstep
    exact watched_commit _ _ _ (watched_startCamera s w hs)
  | frameCaptured =>
    simp only [step] at hstep
    split at hstep
    · cases hstep
      exact watched_commit _ _ _ (watched_captureImage s w hs)
    · cases hstep
  | blobDelivered blob dataUrl =>
    simp only [step] at hstep
    split at hstep
    · cases hstep
      apply watched_commit
      exact watched_store s _ w hs rfl rfl
    · cases hstep
  | predictionsRequested =>
    simp only [step] at hstep
    split at hstep
    · cases hstep
      apply watched_commit
      obtain ⟨h1, h2, h3⟩ := hs
      unfold getPredictionsStart watchStep
      cases hi : s.image with
      | none =>
        simp only [hi]
        exact ⟨h1, h2, h3⟩
      | some img =>
        simp only [hi]
        refine ⟨?_, ?_, ?_⟩
        · simp [h1]
        · intro p hp hflag
          rcases List.mem_append.mp hp with h | h
          · rw [← hi]
            exact h2 p h hflag
          · simp only [List.mem_singleton] at h
            rw [h]
        · intro ho
          have := h3 ho
          unfold Fresh at this ⊢
          simpa [hi] using this
    · cases hstep
  | fetchSettled i o =>
    simp only [step] at hstep
    split at hstep
    · cases hstep
      apply watched_commit
      obtain ⟨h1, h2, h3⟩ := hs
      have hget : s.inFlight[i]? = (w.pending[i]?).map Prod.fst := by
        rw [← h1, List.getElem?_map]
      have herase : (w.pending.eraseIdx i).map Prod.fst = s.inFlight.eraseIdx i := by
        rw [map_fst_eraseIdx, h1]
      have hmem : ∀ p ∈ w.pending.eraseIdx i, p.2 = false → s.image = some p.1 :=
        fun p hp hflag => h2 p (List.mem_of_mem_eraseIdx hp) hflag
      unfold getPredictionsSettle watchStep
      cases hp : w.pending[i]? with
      | none =>
        rw [hp] at hget
        simp only [Option.map_none'] at hget
        simp only [hget, hp]
        have hlen : w.pending.length ≤ i := by
          by_contra hcon
          rw [List.getElem?_eq_getElem (not_le.mp hcon)] at hp
          cases hp
        have he : w.pending.eraseIdx i = w.pending :=
          List.eraseIdx_of_length_le hlen
        rw [he]
        exact ⟨h1, h2, h3⟩
      | some p =>
        rw [hp] at hget
        simp only [Option.map_some'] at hget
        simp only [hget, hp]
        cases htry : tryBlock o with
        | error msg =>
          simp only [htry]
          refine ⟨herase, hmem, ?_⟩
          intro ho
          exact h3 ho
        | ok data =>
          simp only [htry]
          refine ⟨herase, hmem, ?_⟩
          intro ho
          have himg : s.image = some p.1 := h2 p (List.getElem?_mem hp) ho
          unfold Fresh
          simp only
          intro _
          rw [himg]
          exact ⟨rfl, rfl⟩
    · cases hstep
  | streamSettled o =>
    simp only [step] at hstep
    split at hstep
    · cases hstep
      exact watched_commit _ _ _ (watched_initCameraSettle o s w hs)
    · cases hstep

theorem watched_runWatched {P : Type} (createObjectURL : Image → Url)
    (evs : List (Event P)) (s t : State P) (w v : Watch) (hs : Watched s w)
    (hrun : runWatched createObjectURL s w evs = some (t, v)) : Watched t v := by
  induction evs generalizing s w with
  | nil =>
    simp only [runWatched, Option.some.injEq, Prod.mk.injEq] at hrun
    obtain ⟨h1, h2⟩ := hrun
    subst h1
    subst h2
    exact hs
  | cons e rest ih =>
    simp only [runWatched] at hrun
    cases hstep : step createObjectURL s e with
    | none => simp [hstep] at hrun
    | some s1 =>
      simp only [hstep] at hrun
      exact ih s1 _ (watched_step createObjectURL s s1 w e hs hstep) hrun

/-- The bookkeeping refuses no run: the states of `runWatched` are those of
`run`. -/
theorem runWatched_fst {P : Type} (createObjectURL : Image → Url)
    (evs : List (Event P)) (s : State P) (w : Watch) :
    (runWatched createObjectURL s w evs).map Prod.fst =
      run createObjectURL s evs := by
  induction evs generalizing s w with
  | nil => rfl
  | cons e rest ih =>
    simp only [runWatched, run]
    cases step createObjectURL s e with
    | none => rfl
    | some s1 => exact ih s1 _

theorem watched_initial (P : Type) : Watched (initialState P) initialWatch := by
  unfold Watched Fresh initialState initialWatch
  simp

/-- In every state reached from the initial state by any sequence of the
component events, if `predictions` is non-null then it is the response to a
request made with the currently stored image, unless an image was stored while
that request was in flight. -/
theorem fresh_unless_overlapped {P : Type} (createObjectURL : Image → Url)
    (evs : List (Event P)) (s : State P) (w : Watch)
    (hrun : runWatched createObjectURL (initialState P) initialWatch evs =
      some (s, w))
    (hclean : w.overlapped = false) : Fresh s :=
  (watched_runWatched createObjectURL evs _ s _ w (watched_initial P) hrun).2.2
    hclean

/-! ## C4 : opening the camera -/

/-- C4 as stated fails: after a prediction has been stored and a later request
has failed, opening the camera (stream granted) leaves both `predictions` and
`error` non-null. -/
theorem openCamera_keeps_predictions :
    ∃ s, run exampleObjectURL (initialState Nat)
        [Event.fileSelected (some 1), Event.predictionsRequested,
         Event.fetchSettled 0 (FetchOutcome.response true (some 7)),
         Event.predictionsRequested,
         Event.fetchSettled 0 FetchOutcome.rejected] = some s ∧
      s.isCameraOpen = false ∧
      (openCamera (StreamOutcome.granted ⟨[5]⟩) s).predictions = some 7 ∧
      (openCamera (StreamOutcome.granted ⟨[5]⟩) s).error =
        some predictionsFailedMessage := by
  refine ⟨_, rfl, rfl, rfl, rfl⟩

/-- C4 (amended): for every state in which the camera is closed, opening the
camera (`startCamera`, then the camera-initialisation effect) leaves `image`,
`preview` and `predictions` as they were; when the stream is granted `error` is
left as it was and the camera is open on that stream, and when the request
fails `error` becomes the camera failure message and the camera is closed. -/
theorem openCamera_frame {P : Type} (o : StreamOutcome) (s : State P)
    (hclosed : s.isCameraOpen = false) :
    (openCamera o s).predictions = s.predictions ∧
    (openCamera o s).image = s.image ∧
    (openCamera o s).preview = s.preview ∧
    match o with
    | StreamOutcome.granted stream =>
      (openCamera o s).error = s.error ∧
      (openCamera o s).isCameraOpen = true ∧
      (openCamera o s).streamRef = some stream
    | StreamOutcome.failed name =>
      (openCamera o s).error = some (cameraErrorMessage name) ∧
      (openCamera o s).isCameraOpen = false := by
  cases o with
  | granted stream =>
    simp [openCamera, commit, cameraEffect, mountVideo, startCamera,
      initCameraSettle, hclosed]
  | failed name =>
    simp [openCamera, commit, cameraEffect, mountVideo, startCamera,
      initCameraSettle, hclosed]

theorem openCamera_frame_witness :
    (openCamera (StreamOutcome.granted ⟨[5]⟩)
      ({ initialState Nat with predictions := some 7, error := some "old" } :
        State Nat)).predictions = some 7 ∧
    (openCamera (StreamOutcome.granted ⟨[5]⟩)
      ({ initialState Nat with predictions := some 7, error := some "old" } :
        State Nat)).error = some "old" :=
  ⟨(openCamera_frame (StreamOutcome.granted ⟨[5]⟩)
      ({ initialState Nat with predictions := some 7, error := some "old" } :
        State Nat) rfl).1,
   (openCamera_frame (StreamOutcome.granted ⟨[5]⟩)
      ({ initialState Nat with predictions := some 7, error := some "old" } :
        State Nat) rfl).2.2.2.1⟩

/-! ## C5 : `handleImageUpload` -/

/-- C5: for every prior state and every selected file, `handleImageUpload` ends
with `image` equal to that file, `preview` equal to the object URL of that same
file, `predictions = null` and `error = null`, all in the one handler call, the
other cells untouched; when the event carries no file the state is unchanged. -/
theorem handleImageUpload_spec {P : Type} (createObjectURL : Image → Url)
    (s : State P) (f : Image) :
    handleImageUpload createObjectURL (some f) s =
      { s with image := some f, preview := some (createObjectURL f),
               predictions := none, predictionsOf := none, error := none } ∧
    (handleImageUpload createObjectURL (some f) s).image = some f ∧
    (handleImageUpload createObjectURL (some f) s).preview =
      some (createObjectURL f) ∧
    (handleImageUpload createObjectURL (some f) s).predictions = none ∧
    (handleImageUpload createObjectURL (some f) s).error = none ∧
    (handleImageUpload createObjectURL (some f) s).loading = s.loading ∧
    (handleImageUpload createObjectURL (some f) s).isCameraOpen = s.isCameraOpen ∧
    handleImageUpload createObjectURL none s = s :=
  ⟨rfl, rfl, rfl, rfl, rfl, rfl, rfl, rfl⟩

/-! ## C6, C7, C8 : `getPredictions` -/

theorem getElem?_append_length {β : Type} (xs : List β) (x : β) :
    (xs ++ [x])[xs.length]? = some x := by
  simp

theorem getPredictions_eq {P : Type} (o : FetchOutcome P) (s : State P)
    (img : Image) (himg : s.image = some img) :
    getPredictions o s =
      match tryBlock o with
      | Except.ok data =>
        { s with loading := false, error := none, predictions := some data,
                 predictionsOf := some img }
      | Except.error _ =>
        { s with loading := false, error := some predictionsFailedMessage } := by
  unfold getPredictions getPredictionsStart getPredictionsSettle
  simp only [himg, getElem?_append_length]
  have herase : (s.inFlight ++ [img]).eraseIdx s.inFlight.length = s.inFlight := by
    rw [List.eraseIdx_append_of_length_le (le_refl _)]
    simp
  rw [herase]
  cases tryBlock o <;> rfl

/-- C6 as stated fails: with an image stored and a non-2xx response, `error`
ends as the message of the `catch`, not as "Prediction failed". -/
theorem getPredictions_http_failure_message :
    (getPredictions (FetchOutcome.response false (none : Option Nat))
      ({ initialState Nat with image := some 1 } : State Nat)).error =
        some "Failed to get predictions. Please try again." ∧
    (getPredictions (FetchOutcome.response false (none : Option Nat))
      ({ initialState Nat with image := some 1 } : State Nat)).error ≠
        some "Prediction failed" := by
  constructor
  · rfl
  · decide

/-- C6 (amended): for every state with a non-null image, when the prediction
request returns a non-2xx status, `getPredictions` ends with `error` equal to
"Failed to get predictions. Please try again." (the same message as for a
transport failure; the "Prediction failed" of the thrown error is discarded by
the `catch`), `loading = false`, and `predictions` left as it was. -/
theorem getPredictions_http_failure {P : Type} (s : State P) (img : Image)
    (json : Option P) (himg : s.image = some img) :
    (getPredictions (FetchOutcome.response false json) s).error =
      some "Failed to get predictions. Please try again." ∧
    (getPredictions (FetchOutcome.response false json) s).loading = false ∧
    (getPredictions (FetchOutcome.response false json) s).predictions =
      s.predictions ∧
    (getPredictions (FetchOutcome.response false json) s).error =
      (getPredictions (FetchOutcome.rejected : FetchOutcome P) s).error := by
  rw [getPredictions_eq _ s img himg, getPredictions_eq _ s img himg]
  exact ⟨rfl, rfl, rfl, rfl⟩

theorem getPredictions_http_failure_witness :
    (getPredictions (FetchOutcome.response false (some 7))
      ({ initialState Nat with image := some 1, predictions := some 3 } :
        State Nat)).error =
      some "Failed to get predictions. Please try again." ∧
    (getPredictions (FetchOutcome.response false (some 7))
      ({ initialState Nat with image := some 1, predictions := some 3 } :
        State Nat)).predictions = some 3 :=
  ⟨(getPredictions_http_failure
      ({ initialState Nat with image := some 1, predictions := some 3 } :
        State Nat) 1 (some 7) rfl).1,
   (getPredictions_http_failure
      ({ initialState Nat with image := some 1, predictions := some 3 } :
        State Nat) 1 (some 7) rfl).2.2.1⟩

/-- C7: for every state with a non-null image and every outcome of the request
(2xx with a parseable body, non-2xx status, transport failure, unparseable
body), `getPredictions` sets `loading = true` and `error = null` and records the
request before awaiting it, and ends with `loading = false`, also when other
events intervene before the request settles; on the successful outcome it ends
with `predictions` equal to the parsed body and `error = null`. -/
theorem getPredictions_loading {P : Type} (s : State P) (img : Image)
    (o : FetchOutcome P) (himg : s.image = some img) :
    (getPredictionsStart s).loading = true ∧
    (getPredictionsStart s).error = none ∧
    (getPredictionsStart s).inFlight = s.inFlight ++ [img] ∧
    (getPredictions o s).loading = false ∧
    (∀ (t : State P) (i : Nat), i < t.inFlight.length →
      (getPredictionsSettle i o t).loading = false) ∧
    (∀ data, (getPredictions (FetchOutcome.response true (some data)) s).predictions =
        some data ∧
      (getPredictions (FetchOutcome.response true (some data)) s).error = none) := by
  refine ⟨?_, ?_, ?_, ?_, ?_, ?_⟩
  · simp [getPredictionsStart, himg]
  · simp [getPredictionsStart, himg]
  · simp [getPredictionsStart, himg]
  · rw [getPredictions_eq _ s img himg]
    cases tryBlock o <;> rfl
  · intro t i hi
    unfold getPredictionsSettle
    rw [List.getElem?_eq_getElem hi]
  · intro data
    rw [getPredictions_eq _ s img himg]
    exact ⟨rfl, rfl⟩

theorem getPredictions_loading_witness :
    (getPredictionsStart ({ initialState Nat with image := some 1 } :
      State Nat)).loading = true ∧
    (getPredictions (FetchOutcome.response true (none : Option Nat))
      ({ initialState Nat with image := some 1 } : State Nat)).loading = false :=
  ⟨(getPredictions_loading ({ initialState Nat with image := some 1 } : State Nat)
      1 (FetchOutcome.response true none) rfl).1,
   (getPredictions_loading ({ initialState Nat with image := some 1 } : State Nat)
      1 (FetchOutcome.response true none) rfl).2.2.2.1⟩

/-- C8: for every state in which `image` is null, `getPredictions` issues no
network request and leaves every state field unchanged. -/
theorem getPredictions_no_image {P : Type} (s : State P) (o : FetchOutcome P)
    (himg : s.image = none) :
    getPredictions o s = s ∧ getPredictionsStart s = s ∧
    (getPredictionsStart s).inFlight = s.inFlight := by
  unfold getPredictions getPredictionsStart
  simp [himg]

theorem getPredictions_no_image_witness :
    getPredictions (FetchOutcome.response true (some 7))
      ({ initialState Nat with error := some "old", loading := true } :
        State Nat) =
      { initialState Nat with error := some "old", loading := true } :=
  (getPredictions_no_image
    ({ initialState Nat with error := some "old", loading := true } : State Nat)
    (FetchOutcome.response true (some 7)) rfl).1

/-! ## C9 : `captureImage` -/

/-- What `captureImage` does achieve: for every prior state in which the video
element is mounted, `captureImage` ends with `isCameraOpen = false`, the video element unmounted,
every track of the stream bound to the video element stopped, and, once its
`toBlob` callback has run, `image` and `preview` set to the captured frame and
`predictions = null` and `error = null`; in a state with no video element
mounted `captureImage` changes nothing. -/
theorem captureImage_closes {P : Type} (blob : Option Image) (dataUrl : Url)
    (s : State P) (video : VideoElement) (hvideo : s.videoRef = some video)
    (s2 : State P) (hnone : s2.videoRef = none) :
    (captureAndDeliver blob dataUrl s).isCameraOpen = false ∧
    (captureAndDeliver blob dataUrl s).videoRef = none ∧
    (∀ stream, video.srcObject = some stream → ∀ tr ∈ stream.tracks,
      tr ∈ (captureAndDeliver blob dataUrl s).stoppedTracks) ∧
    (captureAndDeliver blob dataUrl s).predictions = none ∧
    (captureAndDeliver blob dataUrl s).error = none ∧
    (captureAndDeliver blob dataUrl s).image = blob ∧
    (captureAndDeliver blob dataUrl s).preview = some dataUrl ∧
    captureImage s2 = s2 := by
  obtain ⟨src⟩ := video
  have hcap : captureImage s2 = s2 := by
    unfold captureImage
    rw [hnone]
  cases src with
  | none =>
    refine ⟨?_, ?_, ?_, ?_, ?_, ?_, ?_, hcap⟩ <;>
      simp [captureAndDeliver, captureImage, commit, cameraEffect, mountVideo,
        toBlobCallback, stopTracks, hvideo]
  | some stream =>
    refine ⟨?_, ?_, ?_, ?_, ?_, ?_, ?_, hcap⟩ <;>
      simp [captureAndDeliver, captureImage, commit, cameraEffect, mountVideo,
        toBlobCallback, stopTracks, hvideo]
    intro tr htr
    exact Or.inr htr

theorem captureImage_closes_witness :
    ∃ s, run exampleObjectURL (initialState Nat)
        [Event.cameraToggled,
         Event.streamSettled (StreamOutcome.granted ⟨[5]⟩)] = some s ∧
      (captureAndDeliver (some 3) "data:image/jpeg" s).isCameraOpen = false ∧
      5 ∈ (captureAndDeliver (some 3) "data:image/jpeg" s).stoppedTracks ∧
      (captureAndDeliver (some 3) "data:image/jpeg" s).predictions = none :=
  ⟨_, rfl,
    (captureImage_closes (some 3) "data:image/jpeg" cameraOpenState ⟨some ⟨[5]⟩⟩ rfl
      (initialState Nat) rfl).1,
    (captureImage_closes (some 3) "data:image/jpeg" cameraOpenState ⟨some ⟨[5]⟩⟩ rfl
      (initialState Nat) rfl).2.2.1 ⟨[5]⟩ rfl 5 (by simp),
    (captureImage_closes (some 3) "data:image/jpeg" cameraOpenState ⟨some ⟨[5]⟩⟩ rfl
      (initialState Nat) rfl).2.2.2.1⟩

/-- C9: the code at the failing inputs. First run: the camera is opened, the
stream (one track, 5) is granted, a frame is captured and its blob delivered;
the camera is closed, the track stopped and `predictions` and `error` are null,
but `streamRef` still holds the stream, which the closing branch of
`startCamera` would have cleared (line 117). Second run: the frame is captured
while `getUserMedia` is still pending and the stream is granted afterwards;
`captureImage` finds `srcObject` null and stops nothing, the late grant throws
on the unmounted video element, and `stop()` is called on no track of the
stream. -/
theorem captureImage_session_not_closed :
    (∃ s, run exampleObjectURL (initialState Nat)
        [Event.cameraToggled,
         Event.streamSettled (StreamOutcome.granted ⟨[5]⟩),
         Event.frameCaptured,
         Event.blobDelivered (some 3) "data:image/jpeg"] = some s ∧
      s.isCameraOpen = false ∧ s.stoppedTracks = [5] ∧
      s.predictions = none ∧ s.error = none ∧
      s.streamRef = some ⟨[5]⟩) ∧
    (∃ s, run exampleObjectURL (initialState Nat)
        [Event.cameraToggled,
         Event.frameCaptured,
         Event.blobDelivered none "data:,",
         Event.streamSettled (StreamOutcome.granted ⟨[5]⟩)] = some s ∧
      s.isCameraOpen = false ∧ s.streamRef = none ∧
      5 ∉ s.stoppedTracks ∧ s.stoppedTracks = [] ∧
      s.error = some cameraFailedMessage) := by
  refine ⟨⟨_, rfl, rfl, rfl, rfl, rfl, rfl⟩, ⟨_, rfl, rfl, rfl, ?_, rfl, rfl⟩⟩
  decide

/-! ## C10 : `startCamera` twice -/

/-- C10: the code at the failing input. From the initial state the camera is
toggled twice before `getUserMedia` settles, and the stream is then granted:
the run ends with `isCameraOpen = false` and `streamRef = null`, but `stop()`
was called on no track of the granted stream, and `error` holds the generic
camera message. -/
theorem startCamera_twice_leaks_stream :
    ∃ s, run exampleObjectURL (initialState Nat)
        [Event.cameraToggled, Event.cameraToggled,
         Event.streamSettled (StreamOutcome.granted ⟨[5]⟩)] = some s ∧
      s.isCameraOpen = false ∧ s.streamRef = none ∧ s.pendingStreams = 0 ∧
      5 ∉ s.stoppedTracks ∧ s.stoppedTracks = [] ∧
      s.error = some cameraFailedMessage := by
  refine ⟨_, rfl, rfl, rfl, rfl, ?_, rfl, rfl⟩
  decide

/-- When the stream is granted before the second call, the second `startCamera`
stops every track of it, clears `streamRef` and closes the camera. -/
theorem startCamera_twice_after_grant {P : Type} (s : State P)
    (stream : MediaStream) (hclosed : s.isCameraOpen = false) :
    (commit (openCamera (StreamOutcome.granted stream) s)
      (startCamera (openCamera (StreamOutcome.granted stream) s))).isCameraOpen
        = false ∧
    (commit (openCamera (StreamOutcome.granted stream) s)
      (startCamera (openCamera (StreamOutcome.granted stream) s))).streamRef
        = none ∧
    ∀ tr ∈ stream.tracks,
      tr ∈ (commit (openCamera (StreamOutcome.granted stream) s)
        (startCamera (openCamera (StreamOutcome.granted stream) s))).stoppedTracks := by
  simp [openCamera, commit, cameraEffect, mountVideo, startCamera,
    initCameraSettle, stopTracks, hclosed]
  intro tr htr
  exact Or.inr htr

/-! ## C11 : failure of the stream request -/

theorem cameraErrorMessage_cases (name : String) :
    (cameraErrorMessage name = cameraDeniedMessage ↔ name = "NotAllowedError") ∧
    (cameraErrorMessage name = cameraNotFoundMessage ↔ name = "NotFoundError") ∧
    (cameraErrorMessage name = cameraFailedMessage ↔
      name ≠ "NotAllowedError" ∧ name ≠ "NotFoundError") := by
  have h12 : cameraDeniedMessage ≠ cameraNotFoundMessage := by decide
  have h13 : cameraDeniedMessage ≠ cameraFailedMessage := by decide
  have h23 : cameraNotFoundMessage ≠ cameraFailedMessage := by decide
  have hn : ("NotAllowedError" : String) ≠ "NotFoundError" := by decide
  unfold cameraErrorMessage
  by_cases ha : name = "NotAllowedError"
  · subst ha
    rw [if_pos rfl]
    refine ⟨⟨fun _ => rfl, fun _ => rfl⟩, ⟨fun h => absurd h h12, fun h => absurd h hn⟩,
      ⟨fun h => absurd h h13, fun h => absurd rfl h.1⟩⟩
  · by_cases hf : name = "NotFoundError"
    · subst hf
      rw [if_neg ha, if_pos rfl]
      refine ⟨⟨fun h => absurd h.symm h12, fun h => absurd h ha⟩,
        ⟨fun _ => rfl, fun _ => rfl⟩,
        ⟨fun h => absurd h h23, fun h => absurd rfl h.2⟩⟩
    · rw [if_neg ha, if_neg hf]
      refine ⟨⟨fun h => absurd h.symm h13, fun h => absurd h ha⟩,
        ⟨fun h => absurd h.symm h23, fun h => absurd h hf⟩,
        ⟨fun _ => ⟨ha, hf⟩, fun _ => rfl⟩⟩

theorem commit_videoRef_of_closed {P : Type} (b s : State P)
    (h : s.isCameraOpen = false) : (commit b s).videoRef = none := by
  unfold commit cameraEffect mountVideo
  split_ifs <;> simp_all

/-- C11: for every failure of the stream request made while opening the camera
(a rejection of `getUserMedia` with an error named `name`, in whatever state it
arrives), the camera-initialisation effect ends with `isCameraOpen = false`, the
video element unmounted, and `error` equal to exactly one of three fixed
messages chosen by `name`: the permission-denied message iff `name` is
'NotAllowedError', the no-camera-found message iff `name` is 'NotFoundError',
and the generic access-failure message iff it is any other name; the effect
records no stream handle (`streamRef` is left as it was); and this is how
opening the camera ends when the request fails. -/
theorem initCamera_failure {P : Type} (name : String) (s : State P) :
    (commit s (initCameraSettle (StreamOutcome.failed name) s)).isCameraOpen
      = false ∧
    (commit s (initCameraSettle (StreamOutcome.failed name) s)).videoRef = none ∧
    ((commit s (initCameraSettle (StreamOutcome.failed name) s)).error =
        some cameraDeniedMessage ∨
      (commit s (initCameraSettle (StreamOutcome.failed name) s)).error =
        some cameraNotFoundMessage ∨
      (commit s (initCameraSettle (StreamOutcome.failed name) s)).error =
        some cameraFailedMessage) ∧
    ((commit s (initCameraSettle (StreamOutcome.failed name) s)).error =
        some cameraDeniedMessage ↔ name = "NotAllowedError") ∧
    ((commit s (initCameraSettle (StreamOutcome.failed name) s)).error =
        some cameraNotFoundMessage ↔ name = "NotFoundError") ∧
    ((commit s (initCameraSettle (StreamOutcome.failed name) s)).error =
        some cameraFailedMessage ↔
      name ≠ "NotAllowedError" ∧ name ≠ "NotFoundError") ∧
    (commit s (initCameraSettle (StreamOutcome.failed name) s)).streamRef =
      s.streamRef ∧
    openCamera (StreamOutcome.failed name) s =
      commit (commit s (startCamera s))
        (initCameraSettle (StreamOutcome.failed name) (commit s (startCamera s))) := by
  obtain ⟨hd, hn, hf⟩ := cameraErrorMessage_cases name
  have herr : (commit s (initCameraSettle (StreamOutcome.failed name) s)).error =
      some (cameraErrorMessage name) := by
    rw [(commit_fields s _).2.2.2.2.1]
    rfl
  have hopen : (commit s (initCameraSettle (StreamOutcome.failed name) s)).isCameraOpen
      = false := by
    rw [(commit_fields s _).2.2.2.2.2.2.2.1]
    rfl
  have hstream : (commit s (initCameraSettle (StreamOutcome.failed name) s)).streamRef
      = s.streamRef := by
    rw [(commit_fields s _).2.2.2.2.2.2.2.2.1]
    rfl
  refine ⟨hopen, commit_videoRef_of_closed _ _ rfl, ?_, ?_, ?_, ?_, hstream, rfl⟩
  · rw [herr]
    by_cases ha : name = "NotAllowedError"
    · exact Or.inl (congrArg some (hd.mpr ha))
    · by_cases hb : name = "NotFoundError"
      · exact Or.inr (Or.inl (congrArg some (hn.mpr hb)))
      · exact Or.inr (Or.inr (congrArg some (hf.mpr ⟨ha, hb⟩)))
  · rw [herr]
    exact ⟨fun h => hd.mp (Option.some.inj h), fun h => congrArg some (hd.mpr h)⟩
  · rw [herr]
    exact ⟨fun h => hn.mp (Option.some.inj h), fun h => congrArg some (hn.mpr h)⟩
  · rw [herr]
    exact ⟨fun h => hf.mp (Option.some.inj h), fun h => congrArg some (hf.mpr h)⟩

/-- The three failures of the stream request at a run from the initial state:
the camera is toggled open and `getUserMedia` rejects. -/
theorem initCamera_failure_examples :
    (run exampleObjectURL (initialState Nat)
        [Event.cameraToggled,
         Event.streamSettled (StreamOutcome.failed "NotAllowedError")]).map
      (fun s => (s.error, s.isCameraOpen, s.streamRef)) =
        some (some cameraDeniedMessage, false, none) ∧
    (run exampleObjectURL (initialState Nat)
        [Event.cameraToggled,
         Event.streamSettled (StreamOutcome.failed "NotFoundError")]).map
      (fun s => (s.error, s.isCameraOpen, s.streamRef)) =
        some (some cameraNotFoundMessage, false, none) ∧
    (run exampleObjectURL (initialState Nat)
        [Event.cameraToggled,
         Event.streamSettled (StreamOutcome.failed "NotReadableError")]).map
      (fun s => (s.error, s.isCameraOpen, s.streamRef)) =
        some (some cameraFailedMessage, false, none) := by
  refine ⟨?_, ?_, ?_⟩ <;> decide

end WeatherRecognitionApp
